import Mathlib

/-!
Shallow embedding of the XRT session cache subsystem:
`XrtSession` (xrt_session.cc), `XrtSessionCache` with its nested RAII
handle `XrtSessionCache::XrtSessionRef` (xrt_session_cache.h /
xrt_session_cache.cc).

Modelling conventions:
* `std::map<string, std::deque<...>> session_map_` is an association
  list with unique keys reachable from the empty map; the code never
  iterates over the map, so entry order is unobservable and absent keys
  are appended at the end on `operator[]` insertion.
* A `std::deque` is a `List` whose head is the deque's front;
  `push_back` appends, `back` is `getLast`, `pop_back` is `dropLast`.
* `shared_ptr<XrtSession>` pointees are session values; a moved-from
  shared_ptr (null) is `none`.
* The `XrtSessionCache*` back pointer of a handle is `Option Nat`
  (a pool identity, `none` = nullptr).
* Calls to `cache_->AddSession(...)` issued by a handle are recorded in
  a log `List (Nat × XrtSession)` (which pool, which session), so that
  "checked in exactly once" is the length of that log.
* The mutex discipline of `GetSession` is recorded as an event trace:
  the `std::lock_guard` acquires at function entry and releases when
  the guard is destroyed, i.e. after the returned value (including any
  `CreateSession` call in the return expression) has been constructed.
-/

namespace xla

/-- Modelled from the spec: the per-name node cache entry of an
`XrtSession` (declared in xrt_session.h, which is not part of the
sources). Per the spec, rewinding "clears/invalidates the per-session
node cache ... it only clears local bookkeeping": retained storage is
kept, the count of valid entries is brought back to zero. -/
structure NodeCache where
  nodes : List Nat
  next : Nat
deriving DecidableEq

/-- Modelled from the spec: `NodeCache::Rewind` invalidates the cache
so it "must be treated as empty even if underlying storage is retained
for reuse". -/
def NodeCache.Rewind (c : NodeCache) : NodeCache :=
  { c with next := 0 }

/-- The cache is in the empty/invalidated state: no valid entries. -/
def NodeCache.isEmptyState (c : NodeCache) : Bool :=
  c.next == 0

/-- The fields of `tensorflow::SessionOptions` the code reads or
writes: the target, and the RPC compression options. -/
structure SessionOptions where
  target : String
  compression : String
  compression_level : Int
deriving DecidableEq

/-- `XrtSession`: target string, named node caches, and the underlying
connection (`root_`/`session_`), abstracted as an opaque handle. -/
structure XrtSession where
  target : String
  node_cache : List (String × NodeCache)
  conn : Nat
deriving DecidableEq

/-- The `XrtSession` constructor (xrt_session.cc): `target_` is taken
from `session_options.target`; the node cache starts out empty; the
connection is whatever the transport established. -/
def XrtSession.make (options : SessionOptions) (conn : Nat) : XrtSession :=
  { target := options.target, node_cache := [], conn := conn }

/-- `XrtSession::Reset` (xrt_session.cc): rewind every named cache;
nothing else is touched. -/
def XrtSession.Reset (s : XrtSession) : XrtSession :=
  { s with node_cache := s.node_cache.map (fun nc => (nc.1, nc.2.Rewind)) }

/-- All node caches of the session are empty/invalidated. -/
def XrtSession.cacheEmptyState (s : XrtSession) : Bool :=
  s.node_cache.all (fun nc => nc.2.isEmptyState)

namespace XrtSessionCache

/-- The pool's `session_map_`. -/
abbrev SessionMap := List (String × List XrtSession)

/-- Lookup in `session_map_` (first matching key). -/
def mapFind : SessionMap → String → Option (List XrtSession)
  | [], _ => none
  | e :: rest, k => if e.1 = k then some e.2 else mapFind rest k

/-- `session_map_[k]`: `std::map::operator[]` returns the mapped deque,
inserting an empty one first when the key is absent. Returns the
(possibly grown) map together with the deque. -/
def mapIndex (m : SessionMap) (k : String) : SessionMap × List XrtSession :=
  match mapFind m k with
  | some q => (m, q)
  | none => (m ++ [(k, [])], [])

/-- Writing back through the reference obtained from `operator[]`:
replace the deque stored under `k` (appending the entry when absent,
which does not happen after `mapIndex`). -/
def mapStore : SessionMap → String → List XrtSession → SessionMap
  | [], k, q => [(k, q)]
  | e :: rest, k, q => if e.1 = k then (k, q) :: rest else e :: mapStore rest k q

/-- The idle collection under key `k`, an absent key read as empty. -/
def mapGet (m : SessionMap) (k : String) : List XrtSession :=
  (mapFind m k).getD []

/-- `XrtSessionCache::XrtSessionRef` (xrt_session_cache.h): RAII handle
over a pool back pointer `cache_` (`none` = nullptr) and an owned
session `session_` (`none` = moved-from null shared_ptr). -/
structure XrtSessionRef where
  cache_ : Option Nat
  session_ : Option XrtSession
deriving DecidableEq

/-- `XrtSessionRef::Detach`: if `cache_` is non-null, call
`cache_->AddSession(std::move(session_))` (logged as a pair of pool
identity and session; moving the shared_ptr nulls `session_`) and null
`cache_`; otherwise do nothing. Returns the updated handle and the log
of `AddSession` calls made. (A non-null `cache_` with a null
`session_` never arises through this interface.) -/
def XrtSessionRef.Detach (r : XrtSessionRef) : XrtSessionRef × List (Nat × XrtSession) :=
  match r.cache_ with
  | some c => (⟨none, none⟩, r.session_.toList.map (fun s => (c, s)))
  | none => (r, [])

/-- `XrtSessionRef::MoveFrom(rhs)` run on `dst`: `Detach()` first, then
`cache_ = rhs.cache_; rhs.cache_ = nullptr;
session_ = std::move(rhs.session_)`. Returns the new destination, the
neutralized source, and the log of `AddSession` calls made. -/
def XrtSessionRef.MoveFrom (dst src : XrtSessionRef) :
    XrtSessionRef × XrtSessionRef × List (Nat × XrtSession) :=
  (⟨src.cache_, src.session_⟩, ⟨none, none⟩, (dst.Detach).2)

/-- The move constructor `XrtSessionRef(XrtSessionRef&&)`: the new
object starts from the default member initializers (`cache_ = nullptr`,
null `session_`) and runs `MoveFrom`. -/
def XrtSessionRef.moveConstruct (src : XrtSessionRef) :
    XrtSessionRef × XrtSessionRef × List (Nat × XrtSession) :=
  XrtSessionRef.MoveFrom ⟨none, none⟩ src

/-- Move assignment `operator=(XrtSessionRef&&)`: the guard
`if (&rhs != this)` skips the body on self-assignment; `rhsAliasesThis`
states whether `&rhs == this`. Returns (destination, source, log). -/
def XrtSessionRef.moveAssign (dst src : XrtSessionRef) (rhsAliasesThis : Bool) :
    XrtSessionRef × XrtSessionRef × List (Nat × XrtSession) :=
  if rhsAliasesThis then (dst, src, [])
  else XrtSessionRef.MoveFrom dst src

/-- The destructor `~XrtSessionRef() { Detach(); }`: the log of
`AddSession` calls the handle makes when it goes out of scope. -/
def XrtSessionRef.destroy (r : XrtSessionRef) : List (Nat × XrtSession) :=
  (r.Detach).2

/-- Number of `AddSession` calls in a log that check in the session
`s`. -/
def countSession (s : XrtSession) : List (Nat × XrtSession) → Nat
  | [] => 0
  | e :: rest => (if e.2 = s then 1 else 0) + countSession s rest

/-- Events of a `GetSession` call, for the lock discipline. -/
inductive Ev where
  | acquire : Ev
  | release : Ev
  | reuse : String → Ev
  | create : String → Ev
deriving DecidableEq

/-- Occurrence count of an event in a trace. -/
def countEv (e : Ev) : List Ev → Nat
  | [] => 0
  | x :: xs => (if x = e then 1 else 0) + countEv e xs

/-- The pool lock is held just before position `i` of the trace: more
acquisitions than releases have happened so far. -/
def lockHeldAt (tr : List Ev) (i : Nat) : Bool :=
  countEv Ev.release (tr.take i) < countEv Ev.acquire (tr.take i)

/-- Result of `XrtSessionCache::GetSession`: the pool map afterwards,
the handle (`none` when session creation failed and the exception
propagated), and the event trace. -/
structure GetSessionResult where
  map : SessionMap
  ref : Option XrtSessionRef
  trace : List Ev
deriving DecidableEq

/-- `XrtSessionCache::GetSession` (xrt_session_cache.cc). The
`lock_guard` acquires on entry and releases when destroyed, which in
C++ happens only after the returned `XrtSessionRef` — including any
`CreateSession(target)` call inside the return expression — has been
constructed, and likewise during exception unwinding.
`session_map_[target]` is `mapIndex`; a non-empty deque has its back
popped and `Reset`; otherwise `CreateSession` (parameter `create`,
`none` = creation failure propagating to the caller) runs. The single
pool is identity `0`. -/
def GetSession (create : String → Option XrtSession) (m : SessionMap)
    (target : String) : GetSessionResult :=
  match ((mapIndex m target).2).getLast? with
  | some session =>
      { map := mapStore (mapIndex m target).1 target ((mapIndex m target).2).dropLast
        ref := some ⟨some 0, some session.Reset⟩
        trace := [Ev.acquire, Ev.reuse target, Ev.release] }
  | none =>
      match create target with
      | some session =>
          { map := (mapIndex m target).1
            ref := some ⟨some 0, some session⟩
            trace := [Ev.acquire, Ev.create target, Ev.release] }
      | none =>
          { map := (mapIndex m target).1
            ref := none
            trace := [Ev.acquire, Ev.create target, Ev.release] }

/-- `XrtSessionCache::AddSession` (xrt_session_cache.cc):
`session_map_[session->target()].push_back(std::move(session))`. -/
def AddSession (m : SessionMap) (session : XrtSession) : SessionMap :=
  mapStore (mapIndex m session.target).1 session.target
    ((mapIndex m session.target).2 ++ [session])

/-- The `SessionOptions` assembled by `XrtSessionCache::CreateSession`
(xrt_session_cache.cc): the requested target; when the environment sets
`XRT_GRPC_COMPRESSION`, also the compression algorithm and level
(environment integer, default 3). `envStr`/`envInt` model the
`sys_util::GetEnvString`/`GetEnvInt` lookups. -/
def buildSessionOptions (envStr : String → Option String) (envInt : String → Option Int)
    (target : String) : SessionOptions :=
  let compression := (envStr "XRT_GRPC_COMPRESSION").getD ""
  if compression = "" then
    { target := target, compression := "", compression_level := 0 }
  else
    { target := target, compression := compression
      compression_level := (envInt "XRT_GRPC_COMPRESSION_LEVEL").getD 3 }

/-- `XrtSessionCache::CreateSession` (xrt_session_cache.cc): assemble
the options, then `std::make_shared<XrtSession>(session_options)`.
`establish` models the transport connection the `XrtSession`
constructor opens, which may fail; a failure propagates out as an
exception (`none`). A successful creation yields the `XrtSession`
constructor's result. -/
def CreateSession (envStr : String → Option String) (envInt : String → Option Int)
    (establish : SessionOptions → Option Nat) (target : String) : Option XrtSession :=
  (establish (buildSessionOptions envStr envInt target)).map
    (fun c => XrtSession.make (buildSessionOptions envStr envInt target) c)

/-- Pool invariant: every session stored under key `k` has target `k`. -/
def WellFormed (m : SessionMap) : Prop :=
  ∀ e ∈ m, ∀ s ∈ e.2, s.target = e.1

instance : DecidablePred WellFormed := fun m =>
  inferInstanceAs (Decidable (∀ e ∈ m, ∀ s ∈ e.2, s.target = e.1))

/-- A `CreateSession` stand-in that always succeeds, for concrete
runs: a fresh session bound to the requested target with an empty node
cache, as the `XrtSession` constructor produces. -/
def createOk : String → Option XrtSession :=
  fun t => some { target := t, node_cache := [], conn := 0 }

/-- A `CreateSession` stand-in whose connection establishment always
fails, for concrete runs of the failure path. -/
def createFail : String → Option XrtSession :=
  fun _ => none

/-- A sample session with a warm (non-empty, valid-entry) node cache. -/
def sampleSession : XrtSession :=
  { target := "x", node_cache := [("n", { nodes := [1, 2], next := 2 })], conn := 5 }

/-- A second sample session for the same target. -/
def sampleSession2 : XrtSession :=
  { target := "x", node_cache := [], conn := 6 }

/-- The handle a first checkout of target "x" on the empty pool with
transport `createOk` returns. -/
def sampleRef : XrtSessionRef :=
  ⟨some 0, some { target := "x", node_cache := [], conn := 0 }⟩

/-! ### Helper lemmas about the map model -/

theorem mapFind_mapStore_self (m : SessionMap) (k : String) (q : List XrtSession) :
    mapFind (mapStore m k q) k = some q := by
  induction m with
  | nil => simp [mapStore, mapFind]
  | cons e rest ih =>
      by_cases h : e.1 = k
      · simp [mapStore, mapFind, h]
      · simp [mapStore, mapFind, h, ih]

theorem mapGet_mapStore_self (m : SessionMap) (k : String) (q : List XrtSession) :
    mapGet (mapStore m k q) k = q := by
  simp [mapGet, mapFind_mapStore_self]

theorem mapFind_mapStore_other (m : SessionMap) (k j : String) (q : List XrtSession)
    (h : j ≠ k) : mapFind (mapStore m k q) j = mapFind m j := by
  induction m with
  | nil => simp [mapStore, mapFind, Ne.symm h]
  | cons e rest ih =>
      by_cases he : e.1 = k
      · simp [mapStore, mapFind, he, Ne.symm h]
      · by_cases hj : e.1 = j <;> simp [mapStore, mapFind, he, hj, h, ih]

theorem mapFind_append_empty_of_ne (m : SessionMap) (k j : String) (h : k ≠ j) :
    mapFind (m ++ [(k, [])]) j = mapFind m j := by
  induction m with
  | nil => simp [mapFind, h]
  | cons e rest ih => by_cases he : e.1 = j <;> simp [mapFind, he, ih]

theorem mapFind_append_empty_self (m : SessionMap) (k : String)
    (h : mapFind m k = none) : mapFind (m ++ [(k, [])]) k = some [] := by
  induction m with
  | nil => simp [mapFind]
  | cons e rest ih =>
      by_cases he : e.1 = k
      · simp [mapFind, he] at h
      · simp [mapFind, he] at h ⊢
        exact ih h

theorem mapGet_mapIndex_fst (m : SessionMap) (k j : String) :
    mapGet (mapIndex m k).1 j = mapGet m j := by
  cases hf : mapFind m k with
  | some q => simp [mapIndex, hf]
  | none =>
      by_cases hkj : k = j
      · subst hkj
        simp [mapIndex, hf, mapGet, mapFind_append_empty_self m k hf]
      · simp [mapIndex, hf, mapGet, mapFind_append_empty_of_ne m k j hkj]

theorem mapIndex_snd (m : SessionMap) (k : String) :
    (mapIndex m k).2 = mapGet m k := by
  cases hf : mapFind m k <;> simp [mapIndex, mapGet, hf]

theorem mapIndex_of_find (m : SessionMap) (k : String) (q : List XrtSession)
    (h : mapFind m k = some q) : mapIndex m k = (m, q) := by
  simp [mapIndex, h]

theorem mapIndex_fst_cases (m : SessionMap) (k : String) :
    (mapIndex m k).1 = m ∨ (mapIndex m k).1 = m ++ [(k, [])] := by
  cases hf : mapFind m k <;> simp [mapIndex, hf]

theorem mapFind_AddSession_self (m : SessionMap) (s : XrtSession) :
    mapFind (AddSession m s) s.target = some (mapGet m s.target ++ [s]) := by
  simp [AddSession, mapFind_mapStore_self, mapIndex_snd]

theorem mapGet_AddSession_self (m : SessionMap) (s : XrtSession) :
    mapGet (AddSession m s) s.target = mapGet m s.target ++ [s] := by
  simp [mapGet, mapFind_AddSession_self]

/-! ### Helper lemmas about `GetSession` and sessions -/

theorem GetSession_reuse (create : String → Option XrtSession) (m : SessionMap)
    (t : String) (q : List XrtSession) (s : XrtSession)
    (h : mapFind m t = some (q ++ [s])) :
    GetSession create m t =
      { map := mapStore m t q
        ref := some ⟨some 0, some s.Reset⟩
        trace := [Ev.acquire, Ev.reuse t, Ev.release] } := by
  have hidx : mapIndex m t = (m, q ++ [s]) := mapIndex_of_find m t _ h
  simp [GetSession, hidx, List.getLast?_concat, List.dropLast_concat]

theorem GetSession_create_some (create : String → Option XrtSession) (m : SessionMap)
    (t : String) (s : XrtSession) (hq : mapGet m t = []) (hc : create t = some s) :
    GetSession create m t =
      { map := (mapIndex m t).1
        ref := some ⟨some 0, some s⟩
        trace := [Ev.acquire, Ev.create t, Ev.release] } := by
  have h2 : (mapIndex m t).2 = [] := by rw [mapIndex_snd]; exact hq
  simp [GetSession, h2, hc]

theorem GetSession_create_none (create : String → Option XrtSession) (m : SessionMap)
    (t : String) (hq : mapGet m t = []) (hc : create t = none) :
    GetSession create m t =
      { map := (mapIndex m t).1
        ref := none
        trace := [Ev.acquire, Ev.create t, Ev.release] } := by
  have h2 : (mapIndex m t).2 = [] := by rw [mapIndex_snd]; exact hq
  simp [GetSession, h2, hc]

theorem Reset_target (s : XrtSession) : s.Reset.target = s.target := rfl

theorem countSession_append (s : XrtSession) (l1 l2 : List (Nat × XrtSession)) :
    countSession s (l1 ++ l2) = countSession s l1 + countSession s l2 := by
  induction l1 with
  | nil => simp [countSession]
  | cons e rest ih => simp [countSession, ih, Nat.add_assoc]

theorem countSession_detach_of_ne (s : XrtSession) (d : XrtSessionRef)
    (hd : d.session_ ≠ some s) : countSession s (d.Detach).2 = 0 := by
  cases hc : d.cache_ with
  | none => simp [XrtSessionRef.Detach, hc, countSession]
  | some c =>
      cases hds : d.session_ with
      | none => simp [XrtSessionRef.Detach, hc, hds, countSession]
      | some s1 =>
          have hne : ¬(s1 = s) := fun he => hd (by rw [hds, he])
          simp [XrtSessionRef.Detach, hc, hds, countSession, hne]

theorem GetSession_ref_shape (create : String → Option XrtSession) (m : SessionMap)
    (t : String) (r : XrtSessionRef) (h : (GetSession create m t).ref = some r) :
    ∃ s, r = ⟨some 0, some s⟩ := by
  unfold GetSession at h
  cases hgl : ((mapIndex m t).2).getLast? with
  | some sess =>
      simp only [hgl] at h
      exact ⟨sess.Reset, by injection h with h; exact h.symm⟩
  | none =>
      simp only [hgl] at h
      cases hc : create t with
      | some sess =>
          simp only [hc] at h
          exact ⟨sess, by injection h with h; exact h.symm⟩
      | none => simp only [hc] at h; cases h

theorem buildSessionOptions_target (envStr : String → Option String)
    (envInt : String → Option Int) (t : String) :
    (buildSessionOptions envStr envInt t).target = t := by
  simp only [buildSessionOptions]
  split <;> rfl

theorem CreateSession_shape (envStr : String → Option String)
    (envInt : String → Option Int) (establish : SessionOptions → Option Nat)
    (t : String) (s : XrtSession)
    (h : CreateSession envStr envInt establish t = some s) :
    s.target = t ∧ s.node_cache = [] := by
  unfold CreateSession at h
  rcases Option.map_eq_some'.1 h with ⟨c, _, rfl⟩
  exact ⟨buildSessionOptions_target envStr envInt t, rfl⟩

theorem cacheEmptyState_Reset (s : XrtSession) : s.Reset.cacheEmptyState = true := by
  rw [XrtSession.cacheEmptyState, XrtSession.Reset, List.all_eq_true]
  intro nc hnc
  rcases List.mem_map.1 hnc with ⟨a, _, rfl⟩
  rfl

theorem WellFormed_append_empty (m : SessionMap) (k : String) (hm : WellFormed m) :
    WellFormed (m ++ [(k, [])]) := by
  intro e he s hs
  rcases List.mem_append.1 he with h1 | h1
  · exact hm e h1 s hs
  · simp at h1
    subst h1
    simp at hs

theorem WellFormed_mapIndex_fst (m : SessionMap) (k : String) (hm : WellFormed m) :
    WellFormed (mapIndex m k).1 := by
  rcases mapIndex_fst_cases m k with h | h <;> rw [h]
  · exact hm
  · exact WellFormed_append_empty m k hm

theorem WellFormed_mapStore (m : SessionMap) (k : String) (q : List XrtSession)
    (hm : WellFormed m) (hq : ∀ s ∈ q, s.target = k) :
    WellFormed (mapStore m k q) := by
  induction m with
  | nil =>
      intro e he s hs
      simp [mapStore] at he
      subst he
      exact hq s hs
  | cons e0 rest ih =>
      have hm0 : ∀ s ∈ e0.2, s.target = e0.1 := hm e0 (List.mem_cons_self _ _)
      have hmr : WellFormed rest := fun e he => hm e (List.mem_cons_of_mem _ he)
      by_cases he0 : e0.1 = k
      · intro e he s hs
        rw [mapStore, if_pos he0] at he
        rcases List.mem_cons.1 he with h1 | h1
        · subst h1; exact hq s hs
        · exact hmr e h1 s hs
      · intro e he s hs
        rw [mapStore, if_neg he0] at he
        rcases List.mem_cons.1 he with h1 | h1
        · subst h1; exact hm0 s hs
        · exact ih hmr e h1 s hs

theorem WellFormed_mapGet (m : SessionMap) (k : String) (hm : WellFormed m) :
    ∀ s ∈ mapGet m k, s.target = k := by
  induction m with
  | nil => simp [mapGet, mapFind]
  | cons e rest ih =>
      have hmr : WellFormed rest := fun x hx => hm x (List.mem_cons_of_mem _ hx)
      by_cases he : e.1 = k
      · intro s hs
        rw [mapGet, mapFind, if_pos he] at hs
        simp at hs
        rw [← he]
        exact hm e (List.mem_cons_self _ _) s hs
      · intro s hs
        rw [mapGet, mapFind, if_neg he] at hs
        exact ih hmr s hs

/-! ### The claims -/

/-- C7: handle release (`Detach`) is guarded by the pool back pointer
and idempotent: with a non-null back pointer it checks the owned
session in once and nulls the pointer; with a null back pointer it is
a no-op with no check-in; a second release is always a no-op. -/
theorem detach_guarded_idempotent (r : XrtSessionRef) :
    (∀ c s, r.cache_ = some c → r.session_ = some s →
        (r.Detach).2 = [(c, s)] ∧ (r.Detach).1.cache_ = none) ∧
    (r.cache_ = none → r.Detach = (r, [])) ∧
    ((r.Detach).1.Detach = ((r.Detach).1, [])) := by
  refine ⟨?_, ?_, ?_⟩
  · intro c s hc hs
    simp [XrtSessionRef.Detach, hc, hs]
  · intro hc
    simp [XrtSessionRef.Detach, hc]
  · cases hc : r.cache_ <;> simp [XrtSessionRef.Detach, hc]

theorem detach_guarded_idempotent_witness :
    (XrtSessionRef.Detach ⟨some 5, some sampleSession⟩).2 = [(5, sampleSession)] ∧
    (XrtSessionRef.Detach ⟨some 5, some sampleSession⟩).1.cache_ = none :=
  (detach_guarded_idempotent ⟨some 5, some sampleSession⟩).1 5 sampleSession rfl rfl

/-- C8: `XrtSession::Reset` is idempotent and only rewinds the node
cache: applying it twice equals applying it once, and neither the
target identifier nor the underlying connection changes. -/
theorem reset_idempotent (s : XrtSession) :
    s.Reset.Reset = s.Reset ∧ s.Reset.target = s.target ∧ s.Reset.conn = s.conn := by
  refine ⟨?_, rfl, rfl⟩
  simp [XrtSession.Reset, NodeCache.Rewind, List.map_map]

/-- C9: move-assigning into a handle that still owns a session first
checks that session in exactly once; the destination takes over the
source's pool back pointer and session, and the source is
neutralized. -/
theorem move_assign_checks_in_old (c : Nat) (co : Option Nat) (s1 s2 : XrtSession) :
    XrtSessionRef.moveAssign ⟨some c, some s1⟩ ⟨co, some s2⟩ false
      = (⟨co, some s2⟩, ⟨none, none⟩, [(c, s1)]) := by
  simp [XrtSessionRef.moveAssign, XrtSessionRef.MoveFrom, XrtSessionRef.Detach]

/-- C10: self-move-assignment is the identity: the `&rhs != this`
guard skips the body, the handle keeps its session and pool back
pointer, and no check-in occurs. -/
theorem self_move_assign_identity (h : XrtSessionRef) :
    XrtSessionRef.moveAssign h h true = (h, h, []) := rfl

/-- C3: for a handle obtained from checkout, moving it — by move
construction, or by move assignment into another handle not owning the
same session — and then letting both the moved-from source and the
destination go out of scope checks the owned session in exactly once,
not twice, not zero times, in either destruction order. For move
construction the complete log of `AddSession` calls is that single
check-in; for move assignment the destination's release at assignment
may also check in the destination's old session, but the moved
session's check-ins still number exactly one. -/
theorem move_then_scope_end_single_checkin (create : String → Option XrtSession)
    (m : SessionMap) (t : String) (h : XrtSessionRef)
    (hh : (GetSession create m t).ref = some h) :
    ∀ s, h.session_ = some s →
      (((h.moveConstruct).2.2 ++ XrtSessionRef.destroy (h.moveConstruct).2.1
          ++ XrtSessionRef.destroy (h.moveConstruct).1) = [(0, s)] ∧
       ((h.moveConstruct).2.2 ++ XrtSessionRef.destroy (h.moveConstruct).1
          ++ XrtSessionRef.destroy (h.moveConstruct).2.1) = [(0, s)]) ∧
      ∀ d : XrtSessionRef, d.session_ ≠ some s →
        (countSession s ((XrtSessionRef.moveAssign d h false).2.2
            ++ XrtSessionRef.destroy (XrtSessionRef.moveAssign d h false).2.1
            ++ XrtSessionRef.destroy (XrtSessionRef.moveAssign d h false).1) = 1 ∧
         countSession s ((XrtSessionRef.moveAssign d h false).2.2
            ++ XrtSessionRef.destroy (XrtSessionRef.moveAssign d h false).1
            ++ XrtSessionRef.destroy (XrtSessionRef.moveAssign d h false).2.1) = 1) := by
  obtain ⟨s0, rfl⟩ := GetSession_ref_shape create m t h hh
  intro s hs
  simp only [Option.some.injEq] at hs
  subst hs
  constructor
  · constructor <;>
      simp [XrtSessionRef.moveConstruct, XrtSessionRef.MoveFrom, XrtSessionRef.Detach,
        XrtSessionRef.destroy]
  · intro d hd
    have hzero : countSession s0 (d.Detach).2 = 0 := countSession_detach_of_ne s0 d hd
    have hMA : XrtSessionRef.moveAssign d ⟨some 0, some s0⟩ false
        = (⟨some 0, some s0⟩, ⟨none, none⟩, (d.Detach).2) := rfl
    have hd1 : XrtSessionRef.destroy (⟨none, none⟩ : XrtSessionRef) = [] := rfl
    have hd2 : XrtSessionRef.destroy (⟨some 0, some s0⟩ : XrtSessionRef) = [(0, s0)] := rfl
    constructor <;>
      simp [hMA, hd1, hd2, countSession_append, hzero, countSession]

theorem move_then_scope_end_single_checkin_witness :
    countSession { target := "x", node_cache := [], conn := 0 }
      ((XrtSessionRef.moveAssign ⟨some 3, some sampleSession⟩ sampleRef false).2.2
        ++ XrtSessionRef.destroy
            (XrtSessionRef.moveAssign ⟨some 3, some sampleSession⟩ sampleRef false).2.1
        ++ XrtSessionRef.destroy
            (XrtSessionRef.moveAssign ⟨some 3, some sampleSession⟩ sampleRef false).1) = 1 :=
  (((move_then_scope_end_single_checkin createOk [] "x" sampleRef (by decide))
      { target := "x", node_cache := [], conn := 0 } rfl).2
    ⟨some 3, some sampleSession⟩ (by decide)).1

/-- C4: LIFO reuse. Check-in appends at the back of a target's idle
deque and checkout removes from the back, so after S1 and then S2 are
checked in for the same target, the next checkout returns S2 (reset)
and the one after it returns S1 (reset). -/
theorem checkout_lifo (create : String → Option XrtSession) (m : SessionMap)
    (t : String) (s1 s2 : XrtSession) (h1 : s1.target = t) (h2 : s2.target = t) :
    (GetSession create (AddSession (AddSession m s1) s2) t).ref
        = some ⟨some 0, some s2.Reset⟩ ∧
    (GetSession create (GetSession create (AddSession (AddSession m s1) s2) t).map t).ref
        = some ⟨some 0, some s1.Reset⟩ := by
  have gB : mapGet (AddSession m s1) t = mapGet m t ++ [s1] := by
    have hx := mapGet_AddSession_self m s1
    rwa [h1] at hx
  have f2 : mapFind (AddSession (AddSession m s1) s2) t
      = some ((mapGet m t ++ [s1]) ++ [s2]) := by
    have hx := mapFind_AddSession_self (AddSession m s1) s2
    rw [h2, gB] at hx
    exact hx
  have hget1 := GetSession_reuse create (AddSession (AddSession m s1) s2) t
    (mapGet m t ++ [s1]) s2 f2
  have f3 : mapFind (mapStore (AddSession (AddSession m s1) s2) t (mapGet m t ++ [s1])) t
      = some (mapGet m t ++ [s1]) := mapFind_mapStore_self _ _ _
  have hget2 := GetSession_reuse create
    (mapStore (AddSession (AddSession m s1) s2) t (mapGet m t ++ [s1])) t
    (mapGet m t) s1 f3
  refine ⟨?_, ?_⟩
  · rw [hget1]
  · rw [hget1]
    simp only
    rw [hget2]

theorem checkout_lifo_witness :
    (GetSession createOk (AddSession (AddSession [] sampleSession) sampleSession2) "x").ref
        = some ⟨some 0, some sampleSession2.Reset⟩ ∧
    (GetSession createOk
        (GetSession createOk (AddSession (AddSession [] sampleSession) sampleSession2) "x").map
        "x").ref = some ⟨some 0, some sampleSession.Reset⟩ :=
  checkout_lifo createOk [] "x" sampleSession sampleSession2 rfl rfl

/-- C5: every session a checkout hands out has its node cache in the
empty/invalidated state: a reused idle session has `Reset` applied
before being returned, and a freshly created session starts with an
empty cache. -/
theorem checkout_cache_invalidated (envStr : String → Option String)
    (envInt : String → Option Int) (establish : SessionOptions → Option Nat)
    (m : SessionMap) (t : String) (r : XrtSessionRef) (s : XrtSession)
    (h1 : (GetSession (CreateSession envStr envInt establish) m t).ref = some r)
    (h2 : r.session_ = some s) :
    s.cacheEmptyState = true := by
  unfold GetSession at h1
  cases hgl : ((mapIndex m t).2).getLast? with
  | some sess =>
      simp only [hgl] at h1
      injection h1 with h1
      subst h1
      simp only [XrtSessionRef.session_, Option.some.injEq] at h2
      subst h2
      exact cacheEmptyState_Reset sess
  | none =>
      simp only [hgl] at h1
      cases hc : CreateSession envStr envInt establish t with
      | some sess =>
          simp only [hc] at h1
          injection h1 with h1
          subst h1
          simp only [XrtSessionRef.session_, Option.some.injEq] at h2
          subst h2
          have hshape := CreateSession_shape envStr envInt establish t sess hc
          rw [XrtSession.cacheEmptyState, hshape.2]
          rfl
      | none => simp only [hc] at h1; cases h1

theorem checkout_cache_invalidated_witness :
    XrtSession.cacheEmptyState { target := "x", node_cache := [], conn := 7 } = true :=
  checkout_cache_invalidated (fun _ => none) (fun _ => none) (fun _ => some 7) [] "x"
    ⟨some 0, some { target := "x", node_cache := [], conn := 7 }⟩
    { target := "x", node_cache := [], conn := 7 } (by decide) rfl

/-- C6: partition isolation. On a well-formed pool, every session a
checkout for `t` returns has target `t`; checkout and check-in keep the
pool well formed (every idle session is filed under its own target);
and check-in appends the session under exactly the key
`session.target()`. -/
theorem partition_isolation (envStr : String → Option String)
    (envInt : String → Option Int) (establish : SessionOptions → Option Nat)
    (m : SessionMap) (t : String) (s : XrtSession) (hm : WellFormed m) :
    (∀ r sess, (GetSession (CreateSession envStr envInt establish) m t).ref = some r →
        r.session_ = some sess → sess.target = t) ∧
    WellFormed (GetSession (CreateSession envStr envInt establish) m t).map ∧
    WellFormed (AddSession m s) ∧
    mapGet (AddSession m s) s.target = mapGet m s.target ++ [s] := by
  have hmi : WellFormed (mapIndex m t).1 := WellFormed_mapIndex_fst m t hm
  refine ⟨?_, ?_, ?_, mapGet_AddSession_self m s⟩
  · intro r sess hr hsess
    unfold GetSession at hr
    cases hgl : ((mapIndex m t).2).getLast? with
    | some s0 =>
        simp only [hgl] at hr
        injection hr with hr
        subst hr
        simp only [XrtSessionRef.session_, Option.some.injEq] at hsess
        subst hsess
        have hs0 : s0 ∈ mapGet m t := by
          rw [← mapIndex_snd m t]
          exact List.mem_of_mem_getLast? (by simp [hgl, Option.mem_def])
        rw [Reset_target]
        exact WellFormed_mapGet m t hm s0 hs0
    | none =>
        simp only [hgl] at hr
        cases hc : CreateSession envStr envInt establish t with
        | some s0 =>
            simp only [hc] at hr
            injection hr with hr
            subst hr
            simp only [XrtSessionRef.session_, Option.some.injEq] at hsess
            subst hsess
            exact (CreateSession_shape envStr envInt establish t s0 hc).1
        | none => simp only [hc] at hr; cases hr
  · unfold GetSession
    cases hgl : ((mapIndex m t).2).getLast? with
    | some s0 =>
        simp only [hgl]
        refine WellFormed_mapStore _ _ _ hmi ?_
        intro x hx
        have hx2 : x ∈ mapGet m t := by
          rw [← mapIndex_snd m t]
          exact List.dropLast_subset _ hx
        exact WellFormed_mapGet m t hm x hx2
    | none =>
        simp only [hgl]
        cases hc : CreateSession envStr envInt establish t <;> simp only [hc] <;> exact hmi
  · exact WellFormed_mapStore _ _ _ (WellFormed_mapIndex_fst m s.target hm)
      (by
        intro x hx
        have hx2 : x ∈ mapGet m s.target ∨ x = s := by simpa [mapIndex_snd] using hx
        rcases hx2 with h1 | h1
        · exact WellFormed_mapGet m s.target hm x h1
        · subst h1; rfl)

theorem partition_isolation_witness :
    mapGet (AddSession [] sampleSession) sampleSession.target
      = mapGet [] sampleSession.target ++ [sampleSession] :=
  (partition_isolation (fun _ => none) (fun _ => none) (fun _ => some 7) [] "x"
    sampleSession (by decide)).2.2.2

/-- C1, refuted: on an empty pool, checkout of "x" takes the creation
path and its trace has the create event at position 1, where the pool
lock (acquired by the `lock_guard` at function entry and released only
when the guard is destroyed, after the return value — including the
`CreateSession` call — is built) is still held. So it is not the case
that every creation-path checkout creates the session with no lock
held. -/
theorem creation_lock_not_held_refuted :
    ¬ (∀ i, (GetSession createOk [] "x").trace[i]? = some (Ev.create "x") →
        lockHeldAt (GetSession createOk [] "x").trace i = false) := by
  intro hcl
  have h1 := hcl 1 (by decide)
  exact absurd h1 (by decide)

/-- C1, amended: for every checkout that takes the creation path, the
session is created while the pool lock IS held: the trace is
acquire, create, release, and at every create event the lock is
held. -/
theorem creation_under_lock (create : String → Option XrtSession) (m : SessionMap)
    (t : String) (hq : mapGet m t = []) :
    (GetSession create m t).trace = [Ev.acquire, Ev.create t, Ev.release] ∧
    ∀ i, (GetSession create m t).trace[i]? = some (Ev.create t) →
        lockHeldAt (GetSession create m t).trace i = true := by
  have h2 : (mapIndex m t).2 = [] := by rw [mapIndex_snd]; exact hq
  have htr : (GetSession create m t).trace = [Ev.acquire, Ev.create t, Ev.release] := by
    unfold GetSession
    simp only [h2, List.getLast?_nil]
    cases hc : create t <;> simp [hc]
  refine ⟨htr, ?_⟩
  intro i hi
  rw [htr] at hi ⊢
  match i with
  | 0 => simp at hi
  | 1 => rfl
  | 2 => simp at hi
  | (n + 3) => simp at hi

theorem creation_under_lock_witness :
    lockHeldAt (GetSession createOk [] "x").trace 1 = true :=
  (creation_under_lock createOk [] "x" (by decide)).2 1 (by decide)

/-- C2, refuted: on the empty pool, a checkout of "x" whose session
creation fails leaves the map changed: `session_map_["x"]`
default-inserts an empty deque for the previously absent key before
the creation attempt, and the exception unwinds past the `lock_guard`
without removing it. The mapping is not exactly the same as before. -/
theorem failed_create_map_unchanged_refuted :
    (GetSession createFail [] "x").ref = none ∧
    (GetSession createFail [] "x").map = [("x", [])] ∧
    ([("x", ([] : List XrtSession))] : SessionMap) ≠ ([] : SessionMap) := by
  refine ⟨by decide, by decide, by decide⟩

/-- C2, amended: a failed creation adds no session to and removes no
session from any target's idle collection — reading an absent key as
empty, every target's idle sessions are exactly as before — and the
only possible change to the mapping is the default-insertion of an
empty collection under the requested target. -/
theorem failed_create_idle_sessions_unchanged (create : String → Option XrtSession)
    (m : SessionMap) (t : String)
    (hfail : (GetSession create m t).ref = none) :
    (∀ k, mapGet (GetSession create m t).map k = mapGet m k) ∧
    ((GetSession create m t).map = m ∨ (GetSession create m t).map = m ++ [(t, [])]) := by
  unfold GetSession at hfail ⊢
  cases hgl : ((mapIndex m t).2).getLast? with
  | some sess =>
      simp only [hgl] at hfail
      exact Option.noConfusion hfail
  | none =>
      simp only [hgl] at hfail ⊢
      cases hc : create t with
      | some sess =>
          simp only [hc] at hfail
          exact Option.noConfusion hfail
      | none =>
          simp only [hc]
          exact ⟨fun k => mapGet_mapIndex_fst m t k, mapIndex_fst_cases m t⟩

theorem failed_create_idle_sessions_unchanged_witness :
    mapGet (GetSession createFail [] "x").map "x" = mapGet [] "x" :=
  (failed_create_idle_sessions_unchanged createFail [] "x" (by decide)).1 "x"

end XrtSessionCache

end xla
